import Mathlib

/-!
# PacJump3: the per-frame simulation of `src/index.js`

A shallow embedding of the `DoodleJumpGame` component of `src/index.js`:
its constants, the world generator (`initPlatforms`, `initEnemies`,
`initGameState`), the keyboard handlers, the body of `gameLoop` and
`handleRestart`.

Conventions of the embedding.

* JavaScript numbers are modelled as exact rationals (`ℚ`); every constant of
  the source (0.25, 1.5, 3.5, 0.7, ...) is a rational. Rounding of IEEE doubles
  is outside the model.
* `window.innerWidth` and `window.innerHeight` are the two fields of `Screen`.
* `Math.random()` is a sequence of draws in `[0, 1)`, consumed in the order in
  which the source calls it.
* The React hooks of the component (`gameStateRef`, `gameOverTriggered`,
  `score`, `gameOver`, `highScore`, `isInitialized`) are the fields of
  `Component`. A `setX(v)` call is modelled as the assignment of the hook and
  is recorded, in order, in the effect log of the frame, together with the
  sound and alert calls.
* `gameStateRef.current` is taken after the mount effect (lines 330-333) has
  run, so it holds a game state; the `if (!state) return` of line 223 guards
  the unmounted component only. Canvas drawing (lines 221, 304-320) writes
  no simulation state and is not modelled.
-/

namespace PacJump

/-! ## Constants (lines 33-43) -/

/-- The viewport: `window.innerWidth` and `window.innerHeight`. -/
structure Screen where
  SCREEN_WIDTH : ℚ
  SCREEN_HEIGHT : ℚ

def GRAVITY : ℚ := 1 / 4
def JUMP_FORCE : ℚ := -12
def PLAYER_SIZE : ℚ := 40
def PLATFORM_WIDTH : ℚ := 150
def PLATFORM_HEIGHT : ℚ := 15
def PLATFORM_SPACING : ℚ := 60
def WINNING_SCORE : ℚ := 1000
def ghostColors : List String := ["#FF0000", "#FFC0CB", "#00FFFF", "#FFA500"]

/-! ## Data model -/

/-- The `type` tag of a platform: the two strings `initPlatforms` writes. -/
inductive PlatformType where
  | static
  | bouncy
  deriving DecidableEq, Repr

structure Platform where
  x : ℚ
  y : ℚ
  type : PlatformType
  deriving DecidableEq

structure Enemy where
  x : ℚ
  y : ℚ
  width : ℚ
  height : ℚ
  direction : ℚ
  color : String
  deriving DecidableEq

structure Player where
  x : ℚ
  y : ℚ
  velocityY : ℚ
  velocityX : ℚ
  isJumping : Bool
  deriving DecidableEq

/-- The object held in `gameStateRef.current` (lines 169-181). -/
structure GameState where
  player : Player
  platforms : List Platform
  enemies : List Enemy
  cameraY : ℚ
  maxHeight : ℚ
  deriving DecidableEq

/-- The hooks of the component (lines 7-12). -/
structure Component where
  gameStateRef : GameState
  gameOverTriggered : Bool
  score : ℤ
  gameOver : Bool
  highScore : ℤ
  isInitialized : Bool
  deriving DecidableEq

/-- Calls into React state setters and the presentation layer made by a frame. -/
inductive Effect where
  | setScore (v : ℤ)
  | setHighScore (v : ℤ)
  | setGameOver (b : Bool)
  | playGameOverSound (currentTime : ℚ)
  | playWinSound (currentTime : ℚ)
  | alert (score : ℤ)
  deriving DecidableEq

/-- A frame in progress: the component and the effects fired so far. -/
structure Frame where
  c : Component
  log : List Effect

/-- One outcome of `Math.random()`: a number in `[0, 1)`. -/
structure Draw where
  val : ℚ
  nonneg : 0 ≤ val
  lt_one : val < 1

/-! ## World generator (lines 140-182) -/

/-- The number of platforms: `Math.ceil(((WINNING_SCORE + 200) * 10) / PLATFORM_SPACING)`. -/
def numPlatforms : ℕ := Int.toNat ⌈((WINNING_SCORE + 200) * 10) / PLATFORM_SPACING⌉

/-- The body of the loop of `initPlatforms` (lines 144-147): iteration `i` makes
draws `2 * i` (the x position) and `2 * i + 1` (the type). -/
def platformAt (scr : Screen) (rand : ℕ → Draw) (i : ℕ) : Platform :=
  { x := (rand (2 * i)).val * (scr.SCREEN_WIDTH - PLATFORM_WIDTH)
    y := scr.SCREEN_HEIGHT - (i : ℚ) * PLATFORM_SPACING
    type := if (rand (2 * i + 1)).val < 1 / 5 then PlatformType.bouncy else PlatformType.static }

/-- The function `initPlatforms`. -/
def initPlatforms (scr : Screen) (rand : ℕ → Draw) : List Platform :=
  (List.range numPlatforms).map (platformAt scr rand)

/-- The callback of `.map` in `initEnemies` (lines 155-162) for the `k`-th kept
platform: it makes draws `base + 2 * k` (direction) and `base + 2 * k + 1` (colour),
where `base` counts the draws made before the call of `initEnemies`. -/
def enemyOn (rand : ℕ → Draw) (base k : ℕ) (platform : Platform) : Enemy :=
  { x := platform.x + PLATFORM_WIDTH / 2 - 15
    y := platform.y - 30
    width := 30
    height := 30
    direction := if (rand (base + 2 * k)).val < 1 / 2 then -1 else 1
    color := ghostColors.getD
      (Int.toNat ⌊(rand (base + 2 * k + 1)).val * ghostColors.length⌋) "" }

/-- The function `initEnemies`: the platforms at the indices `i % 10 === 0 && i !== 0`
are kept, and each kept platform gets one enemy. -/
def initEnemies (rand : ℕ → Draw) (base : ℕ) (platforms : List Platform) : List Enemy :=
  ((platforms.enum.filter fun ip => ip.1 % 10 == 0 && ip.1 != 0).map Prod.snd).enum.map
    fun kp => enemyOn rand base kp.1 kp.2

/-- The player on the first platform; `platforms[0]` of an empty list is the
only case in which the source would throw, and `initPlatforms` never returns it. -/
def initGameState (scr : Screen) (rand : ℕ → Draw) : GameState :=
  let platforms := initPlatforms scr rand
  let enemies := initEnemies rand (2 * numPlatforms) platforms
  let firstPlatform := platforms.headD ⟨0, 0, PlatformType.static⟩
  { player :=
      { x := firstPlatform.x + (PLATFORM_WIDTH - PLAYER_SIZE) / 2
        y := firstPlatform.y - PLAYER_SIZE - 30
        velocityY := 0
        velocityX := 0
        isJumping := false }
    platforms := platforms
    enemies := enemies
    cameraY := 0
    maxHeight := 0 }

/-- The component once the mount effect (lines 330-333) has run. -/
def mount (scr : Screen) (rand : ℕ → Draw) : Component :=
  { gameStateRef := initGameState scr rand
    gameOverTriggered := false
    score := 0
    gameOver := false
    highScore := 0
    isInitialized := true }

/-! ## Input handlers (lines 187-201) -/

def setVelocityX (c : Component) (v : ℚ) : Component :=
  { c with gameStateRef := { c.gameStateRef with player := { c.gameStateRef.player with velocityX := v } } }

def handleKeyDown (c : Component) (key : String) : Component :=
  if c.gameOver then c
  else
    let speed : ℚ := 7 / 2
    if key = "ArrowLeft" ∨ key = "a" then setVelocityX c (-speed)
    else if key = "ArrowRight" ∨ key = "d" then setVelocityX c speed
    else c

def handleKeyUp (c : Component) (key : String) : Component :=
  if c.gameOver then c
  else if key ∈ ["ArrowLeft", "a", "ArrowRight", "d"] then setVelocityX c 0
  else c

/-! ## The frame (lines 218-302) -/

/-- Lines 226-230: move, gravity after the move, screen wrap. -/
def updatePlayerPhysics (scr : Screen) (p : Player) : Player :=
  let x1 := p.x + p.velocityX
  let y1 := p.y + p.velocityY
  let v1 := p.velocityY + GRAVITY
  let x2 := if x1 < 0 then scr.SCREEN_WIDTH else x1
  let x3 := if x2 > scr.SCREEN_WIDTH then 0 else x2
  { p with x := x3, y := y1, velocityY := v1 }

/-- Lines 234-237: the patrol move of one enemy. -/
def moveEnemy (scr : Screen) (e : Enemy) : Enemy :=
  let x1 := e.x + e.direction * (3 / 2)
  { e with
    x := x1
    direction := if x1 ≤ 0 ∨ x1 + e.width ≥ scr.SCREEN_WIDTH then e.direction * (-1) else e.direction }

/-- Lines 240-243: the box test of the player against one enemy. -/
def hitsPlayer (p : Player) (e : Enemy) : Bool :=
  decide (p.x < e.x + e.width ∧ p.x + PLAYER_SIZE > e.x ∧
    p.y < e.y + e.height ∧ p.y + PLAYER_SIZE > e.y)

/-- Lines 233-254: the `for…of` loop over the enemies. The result is the
enemy list after the loop and whether the collision branch ran (the loop
then stops, and the enemies after the colliding one are not moved). -/
def enemyLoop (scr : Screen) (triggered : Bool) (p : Player) : List Enemy → List Enemy × Bool
  | [] => ([], false)
  | e :: rest =>
    let e1 := moveEnemy scr e
    if !triggered && hitsPlayer p e1 then (e1 :: rest, true)
    else ((e1 :: (enemyLoop scr triggered p rest).1), (enemyLoop scr triggered p rest).2)

/-- Lines 258-267: the callback of `platforms.forEach`. -/
def platformStep (p : Player) (platform : Platform) : Player :=
  if p.y + PLAYER_SIZE ≥ platform.y ∧
      p.y + PLAYER_SIZE ≤ platform.y + PLATFORM_HEIGHT + 5 ∧
      p.x + PLAYER_SIZE > platform.x ∧
      p.x < platform.x + PLATFORM_WIDTH ∧
      p.velocityY > 0 then
    { p with
      velocityY := if platform.type = PlatformType.bouncy then JUMP_FORCE * (3 / 2) else JUMP_FORCE
      isJumping := true }
  else p

/-- Lines 257-268: `state.platforms.forEach`. -/
def platformCollision (p : Player) (platforms : List Platform) : Player :=
  platforms.foldl platformStep p

/-- Lines 226-230 on the frame. -/
def physicsPhase (scr : Screen) (f : Frame) : Frame :=
  { f with c := { f.c with gameStateRef :=
      { f.c.gameStateRef with player := updatePlayerPhysics scr f.c.gameStateRef.player } } }

/-- Lines 233-254 on the frame. -/
def enemyPhase (scr : Screen) (f : Frame) : Frame :=
  let state := f.c.gameStateRef
  let r := enemyLoop scr f.c.gameOverTriggered state.player state.enemies
  if r.2 then
    { c := { f.c with
        gameStateRef := { state with enemies := r.1 }
        gameOverTriggered := true
        gameOver := true }
      log := f.log ++ [Effect.setGameOver true, Effect.playGameOverSound (7 / 10)] }
  else
    { f with c := { f.c with gameStateRef := { state with enemies := r.1 } } }

/-- Lines 257-268 on the frame. -/
def platformPhase (f : Frame) : Frame :=
  { f with c := { f.c with gameStateRef :=
      { f.c.gameStateRef with
        player := platformCollision f.c.gameStateRef.player f.c.gameStateRef.platforms } } }

/-- Lines 271-292: camera, maximum height, score, high score and the win test. -/
def cameraScorePhase (scr : Screen) (f : Frame) : Frame :=
  let state := f.c.gameStateRef
  if state.player.y < scr.SCREEN_HEIGHT / 2 then
    let cameraOffset := scr.SCREEN_HEIGHT / 2 - state.player.y
    let newMaxHeight := max 0 (scr.SCREEN_HEIGHT - state.player.y)
    if newMaxHeight > state.maxHeight then
      let currentScore : ℤ := ⌊newMaxHeight / 10⌋
      let state1 := { state with cameraY := cameraOffset, maxHeight := newMaxHeight }
      let highScore1 := if currentScore > f.c.highScore then currentScore else f.c.highScore
      let log1 := f.log ++ [Effect.setScore currentScore] ++
        (if currentScore > f.c.highScore then [Effect.setHighScore currentScore] else [])
      if !f.c.gameOverTriggered && decide ((currentScore : ℚ) ≥ WINNING_SCORE) then
        { c := { f.c with
            gameStateRef := state1
            score := currentScore
            highScore := highScore1
            gameOverTriggered := true
            gameOver := true }
          log := log1 ++ [Effect.setGameOver true, Effect.playWinSound 1, Effect.alert currentScore] }
      else
        { c := { f.c with gameStateRef := state1, score := currentScore, highScore := highScore1 }
          log := log1 }
    else
      { f with c := { f.c with gameStateRef := { state with cameraY := cameraOffset } } }
  else f

/-- Lines 295-302: the fall-off test. -/
def fallOffPhase (scr : Screen) (f : Frame) : Frame :=
  if !f.c.gameOverTriggered && decide (f.c.gameStateRef.player.y > scr.SCREEN_HEIGHT + 100) then
    { c := { f.c with gameOverTriggered := true, gameOver := true }
      log := f.log ++ [Effect.setGameOver true, Effect.playGameOverSound (7 / 10)] }
  else f

/-- The body of `gameLoop`: one tick, with the effects it fires. -/
def gameLoop (scr : Screen) (c : Component) : Frame :=
  fallOffPhase scr (cameraScorePhase scr (platformPhase (enemyPhase scr (physicsPhase scr ⟨c, []⟩))))

/-- The component after one tick. -/
def tick (scr : Screen) (c : Component) : Component := (gameLoop scr c).c

/-- Lines 336-341: `handleRestart`, with the draws the new world consumes. -/
def handleRestart (scr : Screen) (rand : ℕ → Draw) (c : Component) : Component :=
  { c with
    gameStateRef := initGameState scr rand
    gameOverTriggered := false
    score := 0
    gameOver := false }

/-! ## Runs -/

/-- What happens to the component inside one session: a frame or a key event. -/
inductive Input where
  | tick
  | keyDown (key : String)
  | keyUp (key : String)

/-- An input of a session, or a click on "Play Again" with the draws of the new world. -/
inductive Action where
  | input (i : Input)
  | restart (rand : ℕ → Draw)

/-- One input, the effects of a tick appended to the log. -/
def applyInput (scr : Screen) (f : Frame) : Input → Frame
  | Input.tick => ⟨(gameLoop scr f.c).c, f.log ++ (gameLoop scr f.c).log⟩
  | Input.keyDown key => ⟨handleKeyDown f.c key, f.log⟩
  | Input.keyUp key => ⟨handleKeyUp f.c key, f.log⟩

/-- One action; `handleRestart` calls `setScore(0)` and `setGameOver(false)`. -/
def applyAction (scr : Screen) (f : Frame) : Action → Frame
  | Action.input i => applyInput scr f i
  | Action.restart rand =>
    ⟨handleRestart scr rand f.c, f.log ++ [Effect.setScore 0, Effect.setGameOver false]⟩

/-- A run inside one session. -/
def runSession (scr : Screen) (f : Frame) (inputs : List Input) : Frame :=
  inputs.foldl (applyInput scr) f

/-- A run with restarts. -/
def runActions (scr : Screen) (f : Frame) (actions : List Action) : Frame :=
  actions.foldl (applyAction scr) f

/-! ## Vocabulary of the statements -/

/-- The calls that announce the end of a session: `setGameOver(true)`, the two
sounds and the alert. -/
def Effect.isTerminal : Effect → Bool
  | Effect.setGameOver b => b
  | Effect.playGameOverSound _ => true
  | Effect.playWinSound _ => true
  | Effect.alert _ => true
  | _ => false

/-- The terminal calls of a log, in order. -/
def terminalPart (log : List Effect) : List Effect := log.filter Effect.isTerminal

/-- The calls of a loss (lines 246-249 and 297-299). -/
def lossEvent : List Effect := [Effect.setGameOver true, Effect.playGameOverSound (7 / 10)]

/-- The calls of a win (lines 285-289). -/
def winEvent (score : ℤ) : List Effect :=
  [Effect.setGameOver true, Effect.playWinSound 1, Effect.alert score]

/-- The calls of exactly one terminal event. -/
def IsTerminalEvent (ev : List Effect) : Prop := ev = lossEvent ∨ ∃ score, ev = winEvent score

/-- A phase that neither touched the latch nor fired a terminal call. -/
def Quiet (f g : Frame) : Prop :=
  g.c.gameOverTriggered = f.c.gameOverTriggered ∧ terminalPart g.log = terminalPart f.log

/-- A phase that found the latch unset, set it and fired one terminal event. -/
def Fires (f g : Frame) : Prop :=
  f.c.gameOverTriggered = false ∧ g.c.gameOverTriggered = true ∧
    ∃ ev, IsTerminalEvent ev ∧ terminalPart g.log = terminalPart f.log ++ ev

/-- The horizontal position after the move and the screen wrap, from `x + velocityX`. -/
def wrapX (scr : Screen) (x1 : ℚ) : ℚ :=
  if x1 < 0 then scr.SCREEN_WIDTH else if x1 > scr.SCREEN_WIDTH then 0 else x1

/-- The band and overlap test of a platform against a player whose box has its
top-left corner at `(x, y)`. -/
def onPlatform (x y : ℚ) (p : Platform) : Prop :=
  p.y ≤ y + 40 ∧ y + 40 ≤ p.y + 20 ∧ x + 40 > p.x ∧ x < p.x + 150

instance (x y : ℚ) (p : Platform) : Decidable (onPlatform x y p) := by
  unfold onPlatform; infer_instance

/-- The jump force of a platform type. -/
def jumpForce : PlatformType → ℚ
  | PlatformType.static => -12
  | PlatformType.bouncy => -18

/-- The box test of the claim: a 40x40 player box at `(px, py)` against a box of
size `ew` x `eh` at `(ex, ey)`. -/
def boxesOverlap (px py ex ey ew eh : ℚ) : Prop :=
  px < ex + ew ∧ px + 40 > ex ∧ py < ey + eh ∧ py + 40 > ey

/-- The length of the common part of the player's side `[p, p + 40]` and an
enemy's side `[e, e + w]` on one axis (zero when they touch, negative when apart). -/
def overlapLength (p e w : ℚ) : ℚ := min (p + 40) (e + w) - max p e

/-- The enemy phase marked the session lost: latch and `gameOver` set, and the
two calls of lines 246-249 are the whole log. -/
def markedLost (f : Frame) : Prop :=
  f.c.gameOverTriggered = true ∧ f.c.gameOver = true ∧
    f.log = [Effect.setGameOver true, Effect.playGameOverSound (7 / 10)]

/-- The state of the latch and the terminal calls in the course of a frame: nothing
fired, or the latch is set and exactly one event fired. -/
def AtMostOne (f : Frame) : Prop :=
  terminalPart f.log = [] ∨ (f.c.gameOverTriggered = true ∧ IsTerminalEvent (terminalPart f.log))

/-- The frame when the camera and score phase starts. -/
def beforeCamera (scr : Screen) (c : Component) : Frame :=
  platformPhase (enemyPhase scr (physicsPhase scr ⟨c, []⟩))

/-- The score shown is the score of the maximum height. -/
def ScoreInv (c : Component) : Prop := c.score = ⌊c.gameStateRef.maxHeight / 10⌋

/-- The vertical band test of a platform against a player whose box has its top at `y`. -/
def inBand (y : ℚ) (p : Platform) : Prop := p.y ≤ y + 40 ∧ y + 40 ≤ p.y + 20

/-- The platforms for which the callback of `platforms.forEach` (lines 258-267) takes
the bounce branch, in the order of the iteration. -/
def bouncers (p : Player) : List Platform → List Platform
  | [] => []
  | platform :: rest =>
    if p.y + PLAYER_SIZE ≥ platform.y ∧
        p.y + PLAYER_SIZE ≤ platform.y + PLATFORM_HEIGHT + 5 ∧
        p.x + PLAYER_SIZE > platform.x ∧
        p.x < platform.x + PLATFORM_WIDTH ∧
        p.velocityY > 0 then
      platform :: bouncers (platformStep p platform) rest
    else bouncers (platformStep p platform) rest

/-- The enemy loop of the tick that starts in `c` met a collision and stopped. -/
def loopCut (scr : Screen) (c : Component) : Bool :=
  (enemyLoop scr c.gameOverTriggered (updatePlayerPhysics scr c.gameStateRef.player)
    c.gameStateRef.enemies).2

/-- What a patrol of an enemy of width 30 keeps true from tick to tick: the enemy is at
most one step of 1.5 beyond an edge, and then it moves back towards the screen. -/
def PatrolInv (scr : Screen) (e : Enemy) : Prop :=
  e.width = 30 ∧ (e.direction = 1 ∨ e.direction = -1) ∧
    -3 / 2 ≤ e.x ∧ e.x ≤ scr.SCREEN_WIDTH - 30 + 3 / 2 ∧
    (e.x < 0 → e.direction = 1) ∧ (scr.SCREEN_WIDTH - 30 < e.x → e.direction = -1)

/-! ## Sample states -/

def demoScreen : Screen := ⟨800, 600⟩

/-- A component with the given game state, running, nothing scored yet. -/
def running (s : GameState) : Component :=
  { gameStateRef := s
    gameOverTriggered := false
    score := 0
    gameOver := false
    highScore := 0
    isInitialized := true }

/-- The draw 0.5. -/
def halfDraw : Draw := ⟨1 / 2, by norm_num, by norm_num⟩

/-- A game just mounted on an 800x600 screen, every draw being 0.5. -/
def freshGame : Component := mount demoScreen fun _ => halfDraw

/-- A resting player at the bottom of the screen and one enemy higher up, one unit
from the left edge and moving left. -/
def enemyNearLeftEdge : Component :=
  running
    { player := ⟨380, 530, 0, 0, false⟩
      platforms := []
      enemies := [⟨1, 300, 30, 30, -1, "#FF0000"⟩]
      cameraY := 0
      maxHeight := 0 }

/-- A player one unit from the left edge, the left key held. -/
def leavingLeft : Component :=
  running
    { player := ⟨1, 500, 0, -7 / 2, false⟩
      platforms := []
      enemies := []
      cameraY := 0
      maxHeight := 0 }

/-- A player one unit from the right edge, the right key held. -/
def leavingRight : Component :=
  running
    { player := ⟨799, 500, 0, 7 / 2, false⟩
      platforms := []
      enemies := []
      cameraY := 0
      maxHeight := 0 }

/-- A player above the midpoint of a 600 high screen (y = 100, camera at 200, maximum
height 500 reached) and moving down at 10 per tick. -/
def descendingAboveMidpoint : Component :=
  { gameStateRef :=
      { player := ⟨100, 100, 10, 0, true⟩
        platforms := []
        enemies := []
        cameraY := 200
        maxHeight := 500 }
    gameOverTriggered := false
    score := 50
    gameOver := false
    highScore := 50
    isInitialized := true }

/-- A player above the midpoint and moving up at 12 per tick. -/
def risingAboveMidpoint : Component :=
  { gameStateRef :=
      { player := ⟨100, 100, -12, 0, true⟩
        platforms := []
        enemies := []
        cameraY := 200
        maxHeight := 500 }
    gameOverTriggered := false
    score := 50
    gameOver := false
    highScore := 50
    isInitialized := true }

/-- A component whose latch is set after a loss, the player still falling. -/
def latchedAfterLoss : Component :=
  { gameStateRef :=
      { player := ⟨100, 800, 4, 0, false⟩
        platforms := []
        enemies := []
        cameraY := 0
        maxHeight := 0 }
    gameOverTriggered := true
    score := 0
    gameOver := true
    highScore := 0
    isInitialized := true }

/-- A player falling at 4 per tick, 36 above a bouncy platform. -/
def fallingOntoBouncy : Component :=
  running
    { player := ⟨100, 500, 4, 0, false⟩
      platforms := [⟨50, 540, PlatformType.bouncy⟩]
      enemies := []
      cameraY := 0
      maxHeight := 0 }

/-- A resting player and an enemy moving left whose box, after its move, covers
one unit of the right edge of the player's box. -/
def enemyOneUnitIn : Component :=
  running
    { player := ⟨100, 500, 0, 0, false⟩
      platforms := []
      enemies := [⟨281 / 2, 500, 30, 30, -1, "#FF0000"⟩]
      cameraY := 0
      maxHeight := 0 }

/-! ## Lemmas on the phases -/

theorem updatePlayerPhysics_x (scr : Screen) (p : Player) :
    (updatePlayerPhysics scr p).x = wrapX scr (p.x + p.velocityX) := by
  unfold updatePlayerPhysics wrapX
  by_cases h : p.x + p.velocityX < 0 <;> simp [h]

theorem updatePlayerPhysics_y (scr : Screen) (p : Player) :
    (updatePlayerPhysics scr p).y = p.y + p.velocityY := rfl

theorem updatePlayerPhysics_velocityY (scr : Screen) (p : Player) :
    (updatePlayerPhysics scr p).velocityY = p.velocityY + 1 / 4 := rfl

theorem platformStep_x (p : Player) (pl : Platform) : (platformStep p pl).x = p.x := by
  unfold platformStep; split_ifs <;> rfl

theorem platformStep_y (p : Player) (pl : Platform) : (platformStep p pl).y = p.y := by
  unfold platformStep; split_ifs <;> rfl

theorem platformStep_of_not (p : Player) (pl : Platform)
    (h : ¬ (onPlatform p.x p.y pl ∧ p.velocityY > 0)) : platformStep p pl = p := by
  unfold platformStep
  rw [if_neg]
  intro hc
  apply h
  obtain ⟨h1, h2, h3, h4, h5⟩ := hc
  simp only [PLAYER_SIZE, PLATFORM_HEIGHT, PLATFORM_WIDTH] at h1 h2 h3 h4
  exact ⟨⟨h1, by linarith, h3, h4⟩, h5⟩

theorem platformStep_of_on (p : Player) (pl : Platform)
    (h : onPlatform p.x p.y pl) (hv : p.velocityY > 0) :
    platformStep p pl = { p with velocityY := jumpForce pl.type, isJumping := true } := by
  obtain ⟨h1, h2, h3, h4⟩ := h
  unfold platformStep
  rw [if_pos]
  · cases hty : pl.type <;> simp [jumpForce, JUMP_FORCE]; norm_num
  · simp only [PLAYER_SIZE, PLATFORM_HEIGHT, PLATFORM_WIDTH]
    exact ⟨h1, by linarith, h3, h4, hv⟩

theorem jumpForce_neg (t : PlatformType) : jumpForce t < 0 := by
  cases t <;> simp [jumpForce]

theorem platformCollision_of_not_falling (pls : List Platform) (p : Player)
    (hv : p.velocityY ≤ 0) : platformCollision p pls = p := by
  induction pls with
  | nil => rfl
  | cons pl rest ih =>
    show platformCollision (platformStep p pl) rest = p
    rw [platformStep_of_not p pl (fun h => absurd h.2 (not_lt.mpr hv))]
    exact ih

theorem platformCollision_of_none (pls : List Platform) (p : Player)
    (h : ∀ pl ∈ pls, ¬ onPlatform p.x p.y pl) : platformCollision p pls = p := by
  induction pls with
  | nil => rfl
  | cons pl rest ih =>
    show platformCollision (platformStep p pl) rest = p
    rw [platformStep_of_not p pl (fun hc => h pl (List.mem_cons_self _ _) hc.1)]
    exact ih (fun q hq => h q (List.mem_cons_of_mem _ hq))

theorem platformCollision_of_some (pls : List Platform) (p : Player) (hv : p.velocityY > 0)
    (h : ∃ pl ∈ pls, onPlatform p.x p.y pl) :
    ∃ pl ∈ pls, onPlatform p.x p.y pl ∧
      platformCollision p pls = { p with velocityY := jumpForce pl.type, isJumping := true } := by
  induction pls with
  | nil => obtain ⟨pl, hpl, _⟩ := h; cases hpl
  | cons pl rest ih =>
    by_cases hon : onPlatform p.x p.y pl
    · refine ⟨pl, List.mem_cons_self _ _, hon, ?_⟩
      show platformCollision (platformStep p pl) rest = _
      rw [platformStep_of_on p pl hon hv]
      exact platformCollision_of_not_falling rest _ (le_of_lt (jumpForce_neg _))
    · have hrest : ∃ q ∈ rest, onPlatform p.x p.y q := by
        obtain ⟨q, hq, hqon⟩ := h
        rcases List.mem_cons.mp hq with rfl | hq
        · exact absurd hqon hon
        · exact ⟨q, hq, hqon⟩
      obtain ⟨q, hq, hqon, hres⟩ := ih hrest
      refine ⟨q, List.mem_cons_of_mem _ hq, hqon, ?_⟩
      show platformCollision (platformStep p pl) rest = _
      rw [platformStep_of_not p pl (fun hc => hon hc.1)]
      exact hres

/-! ### What each phase leaves alone -/

theorem enemyPhase_player (scr : Screen) (f : Frame) :
    (enemyPhase scr f).c.gameStateRef.player = f.c.gameStateRef.player := by
  unfold enemyPhase; dsimp only; split_ifs <;> rfl

theorem enemyPhase_platforms (scr : Screen) (f : Frame) :
    (enemyPhase scr f).c.gameStateRef.platforms = f.c.gameStateRef.platforms := by
  unfold enemyPhase; dsimp only; split_ifs <;> rfl

theorem cameraScorePhase_player (scr : Screen) (f : Frame) :
    (cameraScorePhase scr f).c.gameStateRef.player = f.c.gameStateRef.player := by
  unfold cameraScorePhase; dsimp only; split_ifs <;> rfl

theorem fallOffPhase_gameStateRef (scr : Screen) (f : Frame) :
    (fallOffPhase scr f).c.gameStateRef = f.c.gameStateRef := by
  unfold fallOffPhase; split_ifs <;> rfl

/-- The player after a tick: physics, then the platform loop. -/
theorem tick_player (scr : Screen) (c : Component) :
    (tick scr c).gameStateRef.player =
      platformCollision (updatePlayerPhysics scr c.gameStateRef.player) c.gameStateRef.platforms := by
  unfold tick gameLoop
  rw [fallOffPhase_gameStateRef, cameraScorePhase_player]
  show platformCollision (enemyPhase scr _).c.gameStateRef.player
    (enemyPhase scr _).c.gameStateRef.platforms = _
  rw [enemyPhase_player, enemyPhase_platforms]
  rfl

/-! ## C1: the platform bounce -/

/-- C1: in a tick, with `y' = y + velocityY`, `x'` the wrapped x and
`v' = velocityY + 0.25`: if `v' > 0` and some platform passes the band and overlap
test at `(x', y')`, then the velocity after the tick is the jump force of a platform
that passes the test and `isJumping` is true; it is the jump force of `p` when `p` is
the only platform that passes; and if no platform passes the test, the velocity after
the tick is `v'`. -/
theorem C1_platform_bounce (scr : Screen) (c : Component) :
    let pl := c.gameStateRef.player
    let y' := pl.y + pl.velocityY
    let x' := wrapX scr (pl.x + pl.velocityX)
    let v' := pl.velocityY + 1 / 4
    let after := (tick scr c).gameStateRef.player
    (v' > 0 → (∃ p ∈ c.gameStateRef.platforms, onPlatform x' y' p) →
      (∃ p ∈ c.gameStateRef.platforms, onPlatform x' y' p ∧ after.velocityY = jumpForce p.type) ∧
        after.isJumping = true) ∧
    (v' > 0 → ∀ p ∈ c.gameStateRef.platforms, onPlatform x' y' p →
      (∀ q ∈ c.gameStateRef.platforms, onPlatform x' y' q → q = p) →
        after.velocityY = jumpForce p.type) ∧
    ((∀ p ∈ c.gameStateRef.platforms, ¬ onPlatform x' y' p) → after.velocityY = v') := by
  intro pl y' x' v' after
  have hafter : after = platformCollision (updatePlayerPhysics scr pl) c.gameStateRef.platforms :=
    tick_player scr c
  have hx : (updatePlayerPhysics scr pl).x = x' := updatePlayerPhysics_x scr pl
  have hy : (updatePlayerPhysics scr pl).y = y' := rfl
  have hv : (updatePlayerPhysics scr pl).velocityY = v' := rfl
  have key : v' > 0 → (∃ p ∈ c.gameStateRef.platforms, onPlatform x' y' p) →
      ∃ p ∈ c.gameStateRef.platforms, onPlatform x' y' p ∧
        after.velocityY = jumpForce p.type ∧ after.isJumping = true := by
    intro hpos hex
    have h := platformCollision_of_some c.gameStateRef.platforms (updatePlayerPhysics scr pl)
      (by rw [hv]; exact hpos) (by rw [hx, hy]; exact hex)
    rw [hx, hy] at h
    obtain ⟨p, hp, hon, hres⟩ := h
    refine ⟨p, hp, hon, ?_, ?_⟩ <;> rw [hafter, hres]
  refine ⟨?_, ?_, ?_⟩
  · intro hpos hex
    obtain ⟨p, hp, hon, h1, h2⟩ := key hpos hex
    exact ⟨⟨p, hp, hon, h1⟩, h2⟩
  · intro hpos p hp hon huniq
    obtain ⟨q, hq, hqon, h1, _⟩ := key hpos ⟨p, hp, hon⟩
    rw [h1, huniq q hq hqon]
  · intro hnone
    rw [hafter, platformCollision_of_none _ _ (by rw [hx, hy]; exact hnone)]
    rfl

theorem C1_platform_bounce_witness :
    (∃ p ∈ fallingOntoBouncy.gameStateRef.platforms, onPlatform 100 504 p) ∧
      (tick demoScreen fallingOntoBouncy).gameStateRef.player.velocityY = -18 :=
  ⟨⟨⟨50, 540, PlatformType.bouncy⟩, by simp [fallingOntoBouncy, running],
      by norm_num [onPlatform]⟩,
    (C1_platform_bounce demoScreen fallingOntoBouncy).2.1
      (by norm_num [fallingOntoBouncy, running])
      ⟨50, 540, PlatformType.bouncy⟩
      (by simp [fallingOntoBouncy, running])
      (by norm_num [onPlatform, wrapX, fallingOntoBouncy, running, demoScreen])
      (by intro q hq _; simpa [fallingOntoBouncy, running] using hq)⟩

/-! ## C2: the enemy collision test -/

theorem hitsPlayer_moveEnemy (scr : Screen) (p : Player) (e : Enemy) :
    hitsPlayer p (moveEnemy scr e) = true ↔
      boxesOverlap p.x p.y (e.x + e.direction * (3 / 2)) e.y e.width e.height := by
  simp [hitsPlayer, moveEnemy, boxesOverlap, PLAYER_SIZE]

theorem enemyLoop_hit_iff (scr : Screen) (p : Player) (es : List Enemy) :
    (enemyLoop scr false p es).2 = true ↔ ∃ e ∈ es, hitsPlayer p (moveEnemy scr e) = true := by
  induction es with
  | nil => simp [enemyLoop]
  | cons e rest ih =>
    by_cases h : hitsPlayer p (moveEnemy scr e) = true
    · simp [enemyLoop, h]
    · simp [enemyLoop, h, ih]

theorem boxesOverlap_iff_overlapLength (px py ex ey ew eh : ℚ) (hw : 0 < ew) (hh : 0 < eh) :
    boxesOverlap px py ex ey ew eh ↔ 0 < overlapLength px ex ew ∧ 0 < overlapLength py ey eh := by
  unfold boxesOverlap overlapLength
  simp only [sub_pos, max_lt_iff, lt_min_iff]
  constructor
  · rintro ⟨h1, h2, h3, h4⟩
    refine ⟨⟨⟨?_, ?_⟩, ?_, ?_⟩, ⟨?_, ?_⟩, ?_, ?_⟩ <;> linarith
  · rintro ⟨⟨⟨_, h1⟩, h2, _⟩, ⟨_, h3⟩, h4, _⟩
    refine ⟨?_, ?_, ?_, ?_⟩ <;> linarith

/-- C2: in a tick that starts with the latch unset, the enemy phase marks the
session lost if and only if some enemy's box, at `x + direction * 1.5`, strictly
overlaps the player's 40x40 box at the player's position after the move. For
enemies of positive width and height: an enemy whose box shares at least one unit
with the player's on both axes gives the loss, and when every enemy's box has a
common part of length zero or less on some axis (edges touching, or apart), the
session is not marked lost. -/
theorem C2_enemy_loss_iff_overlap (scr : Screen) (c : Component)
    (hlatch : c.gameOverTriggered = false) :
    let pl := c.gameStateRef.player
    let x' := wrapX scr (pl.x + pl.velocityX)
    let y' := pl.y + pl.velocityY
    let f := enemyPhase scr (physicsPhase scr ⟨c, []⟩)
    (markedLost f ↔ ∃ e ∈ c.gameStateRef.enemies,
      boxesOverlap x' y' (e.x + e.direction * (3 / 2)) e.y e.width e.height) ∧
    (f.c.gameOverTriggered = true ↔ markedLost f) ∧
    ((∀ e ∈ c.gameStateRef.enemies, 0 < e.width ∧ 0 < e.height) →
      ((∃ e ∈ c.gameStateRef.enemies,
          1 ≤ overlapLength x' (e.x + e.direction * (3 / 2)) e.width ∧
          1 ≤ overlapLength y' e.y e.height) → markedLost f) ∧
      ((∀ e ∈ c.gameStateRef.enemies,
          overlapLength x' (e.x + e.direction * (3 / 2)) e.width ≤ 0 ∨
          overlapLength y' e.y e.height ≤ 0) → ¬ markedLost f)) := by
  intro pl x' y' f
  have hx : (updatePlayerPhysics scr pl).x = x' := updatePlayerPhysics_x scr pl
  have hloop : (enemyLoop scr false (updatePlayerPhysics scr pl) c.gameStateRef.enemies).2 = true ↔
      ∃ e ∈ c.gameStateRef.enemies,
        boxesOverlap x' y' (e.x + e.direction * (3 / 2)) e.y e.width e.height := by
    rw [enemyLoop_hit_iff]
    constructor
    · rintro ⟨e, he, h⟩
      refine ⟨e, he, ?_⟩
      rw [hitsPlayer_moveEnemy, hx] at h
      exact h
    · rintro ⟨e, he, h⟩
      refine ⟨e, he, ?_⟩
      rw [hitsPlayer_moveEnemy, hx]
      exact h
  have hlost : markedLost f ↔
      (enemyLoop scr false (updatePlayerPhysics scr pl) c.gameStateRef.enemies).2 = true := by
    show markedLost (enemyPhase scr (physicsPhase scr ⟨c, []⟩)) ↔ _
    unfold enemyPhase physicsPhase markedLost
    simp only [hlatch]
    split_ifs with h
    · simp [h]
    · simp [h, hlatch]
  have hlatch' : f.c.gameOverTriggered = true ↔ markedLost f := by
    rw [hlost]
    show (enemyPhase scr (physicsPhase scr ⟨c, []⟩)).c.gameOverTriggered = true ↔ _
    unfold enemyPhase physicsPhase
    simp only [hlatch]
    split_ifs with h
    · simp [h]
    · simp [h, hlatch]
  have hmain := hlost.trans hloop
  refine ⟨hmain, hlatch', ?_⟩
  intro hpos
  constructor
  · rintro ⟨e, he, h1, h2⟩
    refine hmain.mpr ⟨e, he, ?_⟩
    rw [boxesOverlap_iff_overlapLength _ _ _ _ _ _ (hpos e he).1 (hpos e he).2]
    exact ⟨by linarith, by linarith⟩
  · intro hall hm
    obtain ⟨e, he, h⟩ := hmain.mp hm
    rw [boxesOverlap_iff_overlapLength _ _ _ _ _ _ (hpos e he).1 (hpos e he).2] at h
    rcases hall e he with h1 | h1
    · linarith [h.1]
    · linarith [h.2]

theorem C2_enemy_loss_iff_overlap_witness :
    overlapLength 100 (281 / 2 + (-1) * (3 / 2)) 30 = 1 ∧
      markedLost (enemyPhase demoScreen (physicsPhase demoScreen ⟨enemyOneUnitIn, []⟩)) :=
  ⟨by norm_num [overlapLength],
    ((C2_enemy_loss_iff_overlap demoScreen enemyOneUnitIn rfl).2.2
      (by intro e he
          have : e = ⟨281 / 2, 500, 30, 30, -1, "#FF0000"⟩ := by
            simpa [enemyOneUnitIn, running] using he
          subst this
          norm_num)).1
      ⟨⟨281 / 2, 500, 30, 30, -1, "#FF0000"⟩, by simp [enemyOneUnitIn, running],
        by norm_num [overlapLength, wrapX, enemyOneUnitIn, running, demoScreen],
        by norm_num [overlapLength, enemyOneUnitIn, running]⟩⟩

/-! ## C3: the latch -/

theorem enemyLoop_latched (scr : Screen) (p : Player) (es : List Enemy) :
    (enemyLoop scr true p es).2 = false := by
  induction es with
  | nil => rfl
  | cons e rest ih => simp [enemyLoop, ih]

theorem terminalPart_append (l₁ l₂ : List Effect) :
    terminalPart (l₁ ++ l₂) = terminalPart l₁ ++ terminalPart l₂ := by
  simp [terminalPart]

theorem physicsPhase_quiet (scr : Screen) (f : Frame) : Quiet f (physicsPhase scr f) :=
  ⟨rfl, rfl⟩

theorem platformPhase_quiet (f : Frame) : Quiet f (platformPhase f) := ⟨rfl, rfl⟩

theorem enemyPhase_quiet_or_fires (scr : Screen) (f : Frame) :
    Quiet f (enemyPhase scr f) ∨ Fires f (enemyPhase scr f) := by
  unfold enemyPhase
  dsimp only
  split_ifs with h
  · right
    have hl : f.c.gameOverTriggered = false := by
      cases hb : f.c.gameOverTriggered
      · rfl
      · rw [hb, enemyLoop_latched] at h; cases h
    exact ⟨hl, rfl, lossEvent, Or.inl rfl, by simp [terminalPart, lossEvent, Effect.isTerminal]⟩
  · left; exact ⟨rfl, rfl⟩

theorem cameraScorePhase_quiet_or_fires (scr : Screen) (f : Frame) :
    Quiet f (cameraScorePhase scr f) ∨ Fires f (cameraScorePhase scr f) := by
  unfold cameraScorePhase
  dsimp only
  split_ifs with h1 h2 h3 h4 h4
  · right
    simp only [Bool.and_eq_true, Bool.not_eq_true'] at h3
    refine ⟨h3.1, rfl,
      winEvent ⌊max 0 (scr.SCREEN_HEIGHT - f.c.gameStateRef.player.y) / 10⌋, Or.inr ⟨_, rfl⟩, ?_⟩
    simp [terminalPart, winEvent, Effect.isTerminal]
  · right
    simp only [Bool.and_eq_true, Bool.not_eq_true'] at h3
    refine ⟨h3.1, rfl,
      winEvent ⌊max 0 (scr.SCREEN_HEIGHT - f.c.gameStateRef.player.y) / 10⌋, Or.inr ⟨_, rfl⟩, ?_⟩
    simp [terminalPart, winEvent, Effect.isTerminal]
  · left; exact ⟨rfl, by simp [terminalPart, Effect.isTerminal]⟩
  · left; exact ⟨rfl, by simp [terminalPart, Effect.isTerminal]⟩
  · left; exact ⟨rfl, rfl⟩
  · left; exact ⟨rfl, rfl⟩

theorem fallOffPhase_quiet_or_fires (scr : Screen) (f : Frame) :
    Quiet f (fallOffPhase scr f) ∨ Fires f (fallOffPhase scr f) := by
  unfold fallOffPhase
  split_ifs with h
  · right
    simp only [Bool.and_eq_true, Bool.not_eq_true'] at h
    exact ⟨h.1, rfl, lossEvent, Or.inl rfl, by simp [terminalPart, lossEvent, Effect.isTerminal]⟩
  · left; exact ⟨rfl, rfl⟩

theorem AtMostOne.step {f g : Frame} (hf : AtMostOne f) (h : Quiet f g ∨ Fires f g) :
    AtMostOne g := by
  rcases h with ⟨hl, ht⟩ | ⟨hl, hl', ev, hev, ht⟩
  · rcases hf with h0 | ⟨h1, h2⟩
    · left; rw [ht, h0]
    · right; exact ⟨by rw [hl, h1], by rw [ht]; exact h2⟩
  · rcases hf with h0 | ⟨h1, _⟩
    · right; exact ⟨hl', by rw [ht, h0]; exact hev⟩
    · rw [hl] at h1; cases h1

/-- With the latch set, a phase is quiet. -/
theorem quiet_of_latched {f g : Frame} (hf : f.c.gameOverTriggered = true)
    (h : Quiet f g ∨ Fires f g) : Quiet f g := by
  rcases h with h | ⟨hl, _⟩
  · exact h
  · rw [hl] at hf; cases hf

theorem Quiet.trans {f g h : Frame} (h₁ : Quiet f g) (h₂ : Quiet g h) : Quiet f h :=
  ⟨h₂.1.trans h₁.1, h₂.2.trans h₁.2⟩

theorem gameLoop_atMostOne (scr : Screen) (c : Component) : AtMostOne (gameLoop scr c) := by
  have h0 : AtMostOne (⟨c, []⟩ : Frame) := Or.inl rfl
  have h1 := h0.step (Or.inl (physicsPhase_quiet scr _))
  have h2 := h1.step (enemyPhase_quiet_or_fires scr _)
  have h3 := h2.step (Or.inl (platformPhase_quiet _))
  have h4 := h3.step (cameraScorePhase_quiet_or_fires scr _)
  exact h4.step (fallOffPhase_quiet_or_fires scr _)

theorem gameLoop_quiet_of_latched (scr : Screen) (c : Component)
    (hc : c.gameOverTriggered = true) : Quiet ⟨c, []⟩ (gameLoop scr c) := by
  have h1 : Quiet ⟨c, []⟩ (physicsPhase scr ⟨c, []⟩) := physicsPhase_quiet scr _
  have h2 := quiet_of_latched (h1.1.trans hc) (enemyPhase_quiet_or_fires scr _)
  have h3 : Quiet _ (platformPhase (enemyPhase scr (physicsPhase scr ⟨c, []⟩))) :=
    platformPhase_quiet _
  have l3 := (h1.trans (h2.trans h3)).1
  have h4 := quiet_of_latched (l3.trans hc) (cameraScorePhase_quiet_or_fires scr _)
  have l4 := (h1.trans (h2.trans (h3.trans h4))).1
  have h5 := quiet_of_latched (l4.trans hc) (fallOffPhase_quiet_or_fires scr _)
  exact h1.trans (h2.trans (h3.trans (h4.trans h5)))

theorem handleKeyDown_latch (c : Component) (key : String) :
    (handleKeyDown c key).gameOverTriggered = c.gameOverTriggered := by
  unfold handleKeyDown; dsimp only; split_ifs <;> rfl

theorem handleKeyUp_latch (c : Component) (key : String) :
    (handleKeyUp c key).gameOverTriggered = c.gameOverTriggered := by
  unfold handleKeyUp; split_ifs <;> rfl

theorem applyInput_quiet_of_latched (scr : Screen) (f : Frame) (i : Input)
    (hf : f.c.gameOverTriggered = true) : Quiet f (applyInput scr f i) := by
  cases i with
  | tick =>
    have h := gameLoop_quiet_of_latched scr f.c hf
    refine ⟨h.1, ?_⟩
    show terminalPart (f.log ++ (gameLoop scr f.c).log) = _
    rw [terminalPart_append, h.2]
    simp [terminalPart]
  | keyDown key => exact ⟨handleKeyDown_latch _ _, rfl⟩
  | keyUp key => exact ⟨handleKeyUp_latch _ _, rfl⟩

theorem runSession_quiet_of_latched (scr : Screen) (inputs : List Input) (f : Frame)
    (hf : f.c.gameOverTriggered = true) : Quiet f (runSession scr f inputs) := by
  induction inputs generalizing f with
  | nil => exact ⟨rfl, rfl⟩
  | cons i rest ih =>
    have h1 := applyInput_quiet_of_latched scr f i hf
    exact h1.trans (ih (applyInput scr f i) (h1.1.trans hf))

/-- C3: once the latch is set, any sequence of ticks (and key events) without a
restart leaves it set and fires no terminal call, neither `setGameOver(true)` nor a
sound nor the alert; `handleRestart` clears the latch; and the terminal calls of any
single tick are those of at most one terminal event, with at most one
`setGameOver(true)`. -/
theorem C3_latch_one_shot (scr : Screen) (c : Component) :
    (c.gameOverTriggered = true → ∀ inputs : List Input,
      (runSession scr ⟨c, []⟩ inputs).c.gameOverTriggered = true ∧
      ∀ e ∈ (runSession scr ⟨c, []⟩ inputs).log, e.isTerminal = false) ∧
    (∀ rand, (handleRestart scr rand c).gameOverTriggered = false) ∧
    (terminalPart (gameLoop scr c).log = [] ∨ IsTerminalEvent (terminalPart (gameLoop scr c).log)) ∧
    (gameLoop scr c).log.count (Effect.setGameOver true) ≤ 1 := by
  refine ⟨?_, fun _ => rfl, ?_, ?_⟩
  · intro hc inputs
    have h := runSession_quiet_of_latched scr inputs ⟨c, []⟩ hc
    refine ⟨h.1.trans hc, ?_⟩
    have h2 : terminalPart (runSession scr ⟨c, []⟩ inputs).log = [] := h.2
    intro e he
    by_contra hne
    have hmem : e ∈ terminalPart (runSession scr ⟨c, []⟩ inputs).log :=
      List.mem_filter.mpr ⟨he, by simpa using hne⟩
    rw [h2] at hmem
    cases hmem
  · rcases gameLoop_atMostOne scr c with h | ⟨_, h⟩
    · exact Or.inl h
    · exact Or.inr h
  · have hcount : (gameLoop scr c).log.count (Effect.setGameOver true) =
        (terminalPart (gameLoop scr c).log).count (Effect.setGameOver true) := by
      unfold terminalPart
      rw [List.count_filter]
      rfl
    rw [hcount]
    rcases gameLoop_atMostOne scr c with h | ⟨_, h | ⟨s, h⟩⟩
    · rw [h]; simp
    · rw [h]; simp [lossEvent]
    · rw [h]; simp [winEvent]

theorem C3_latch_one_shot_witness :
    latchedAfterLoss.gameOverTriggered = true ∧
      (runSession demoScreen ⟨latchedAfterLoss, []⟩
        [Input.tick, Input.keyDown "a", Input.tick]).c.gameOverTriggered = true :=
  ⟨rfl, ((C3_latch_one_shot demoScreen latchedAfterLoss).1 rfl
    [Input.tick, Input.keyDown "a", Input.tick]).1⟩

/-! ## Camera, maximum height and score -/

theorem platformCollision_y (pls : List Platform) (p : Player) :
    (platformCollision p pls).y = p.y := by
  induction pls generalizing p with
  | nil => rfl
  | cons pl rest ih =>
    show (platformCollision (platformStep p pl) rest).y = p.y
    rw [ih, platformStep_y]

theorem enemyPhase_maxHeight (scr : Screen) (f : Frame) :
    (enemyPhase scr f).c.gameStateRef.maxHeight = f.c.gameStateRef.maxHeight := by
  unfold enemyPhase; dsimp only; split_ifs <;> rfl

theorem enemyPhase_cameraY (scr : Screen) (f : Frame) :
    (enemyPhase scr f).c.gameStateRef.cameraY = f.c.gameStateRef.cameraY := by
  unfold enemyPhase; dsimp only; split_ifs <;> rfl

theorem enemyPhase_score (scr : Screen) (f : Frame) :
    (enemyPhase scr f).c.score = f.c.score := by
  unfold enemyPhase; dsimp only; split_ifs <;> rfl

theorem fallOffPhase_score (scr : Screen) (f : Frame) :
    (fallOffPhase scr f).c.score = f.c.score := by
  unfold fallOffPhase; split_ifs <;> rfl

theorem gameLoop_eq (scr : Screen) (c : Component) :
    gameLoop scr c = fallOffPhase scr (cameraScorePhase scr (beforeCamera scr c)) := rfl

theorem beforeCamera_y (scr : Screen) (c : Component) :
    (beforeCamera scr c).c.gameStateRef.player.y =
      c.gameStateRef.player.y + c.gameStateRef.player.velocityY := by
  show (platformCollision (enemyPhase scr _).c.gameStateRef.player _).y = _
  rw [platformCollision_y, enemyPhase_player]
  rfl

theorem beforeCamera_maxHeight (scr : Screen) (c : Component) :
    (beforeCamera scr c).c.gameStateRef.maxHeight = c.gameStateRef.maxHeight := by
  show (enemyPhase scr _).c.gameStateRef.maxHeight = _
  rw [enemyPhase_maxHeight]
  rfl

theorem beforeCamera_cameraY (scr : Screen) (c : Component) :
    (beforeCamera scr c).c.gameStateRef.cameraY = c.gameStateRef.cameraY := by
  show (enemyPhase scr _).c.gameStateRef.cameraY = _
  rw [enemyPhase_cameraY]
  rfl

theorem beforeCamera_score (scr : Screen) (c : Component) :
    (beforeCamera scr c).c.score = c.score := by
  show (enemyPhase scr _).c.score = _
  rw [enemyPhase_score]
  rfl

theorem cameraScorePhase_maxHeight (scr : Screen) (f : Frame) :
    (cameraScorePhase scr f).c.gameStateRef.maxHeight =
      if f.c.gameStateRef.player.y < scr.SCREEN_HEIGHT / 2 then
        max f.c.gameStateRef.maxHeight (max 0 (scr.SCREEN_HEIGHT - f.c.gameStateRef.player.y))
      else f.c.gameStateRef.maxHeight := by
  unfold cameraScorePhase
  dsimp only
  split_ifs with h1 h2 <;>
    first
    | rfl
    | exact (max_eq_right (le_of_lt h2)).symm
    | exact (max_eq_left (not_lt.mp h2)).symm

theorem cameraScorePhase_cameraY (scr : Screen) (f : Frame) :
    (cameraScorePhase scr f).c.gameStateRef.cameraY =
      if f.c.gameStateRef.player.y < scr.SCREEN_HEIGHT / 2 then
        scr.SCREEN_HEIGHT / 2 - f.c.gameStateRef.player.y
      else f.c.gameStateRef.cameraY := by
  unfold cameraScorePhase
  dsimp only
  split_ifs <;> rfl

theorem cameraScorePhase_scoreInv (scr : Screen) (f : Frame) (h : ScoreInv f.c) :
    ScoreInv (cameraScorePhase scr f).c := by
  unfold cameraScorePhase
  dsimp only
  split_ifs <;> first | rfl | exact h

/-- The maximum height after a tick. -/
theorem tick_maxHeight (scr : Screen) (c : Component) :
    (tick scr c).gameStateRef.maxHeight =
      if c.gameStateRef.player.y + c.gameStateRef.player.velocityY < scr.SCREEN_HEIGHT / 2 then
        max c.gameStateRef.maxHeight
          (max 0 (scr.SCREEN_HEIGHT - (c.gameStateRef.player.y + c.gameStateRef.player.velocityY)))
      else c.gameStateRef.maxHeight := by
  unfold tick
  rw [gameLoop_eq, fallOffPhase_gameStateRef, cameraScorePhase_maxHeight, beforeCamera_y,
    beforeCamera_maxHeight]

/-- The camera offset after a tick. -/
theorem tick_cameraY (scr : Screen) (c : Component) :
    (tick scr c).gameStateRef.cameraY =
      if c.gameStateRef.player.y + c.gameStateRef.player.velocityY < scr.SCREEN_HEIGHT / 2 then
        scr.SCREEN_HEIGHT / 2 - (c.gameStateRef.player.y + c.gameStateRef.player.velocityY)
      else c.gameStateRef.cameraY := by
  unfold tick
  rw [gameLoop_eq, fallOffPhase_gameStateRef, cameraScorePhase_cameraY, beforeCamera_y,
    beforeCamera_cameraY]

theorem tick_scoreInv (scr : Screen) (c : Component) (h : ScoreInv c) : ScoreInv (tick scr c) := by
  have h1 : ScoreInv (beforeCamera scr c).c := by
    unfold ScoreInv
    rw [beforeCamera_score, beforeCamera_maxHeight]
    exact h
  have h2 := cameraScorePhase_scoreInv scr _ h1
  unfold ScoreInv tick
  rw [gameLoop_eq, fallOffPhase_score, fallOffPhase_gameStateRef]
  exact h2

theorem tick_maxHeight_ge (scr : Screen) (c : Component) :
    c.gameStateRef.maxHeight ≤ (tick scr c).gameStateRef.maxHeight := by
  rw [tick_maxHeight]
  split_ifs
  · exact le_max_left _ _
  · exact le_refl _

theorem handleKeyDown_cases (c : Component) (key : String) :
    handleKeyDown c key = c ∨ ∃ v, handleKeyDown c key = setVelocityX c v := by
  unfold handleKeyDown
  dsimp only
  split_ifs
  · exact Or.inl rfl
  · exact Or.inr ⟨_, rfl⟩
  · exact Or.inr ⟨_, rfl⟩
  · exact Or.inl rfl

theorem handleKeyUp_cases (c : Component) (key : String) :
    handleKeyUp c key = c ∨ ∃ v, handleKeyUp c key = setVelocityX c v := by
  unfold handleKeyUp
  split_ifs
  · exact Or.inl rfl
  · exact Or.inr ⟨_, rfl⟩
  · exact Or.inl rfl

theorem applyInput_scoreInv (scr : Screen) (f : Frame) (i : Input) (h : ScoreInv f.c) :
    ScoreInv (applyInput scr f i).c := by
  cases i with
  | tick => exact tick_scoreInv scr f.c h
  | keyDown key =>
    show ScoreInv (handleKeyDown f.c key)
    rcases handleKeyDown_cases f.c key with h1 | ⟨v, h1⟩ <;> (rw [h1]; exact h)
  | keyUp key =>
    show ScoreInv (handleKeyUp f.c key)
    rcases handleKeyUp_cases f.c key with h1 | ⟨v, h1⟩ <;> (rw [h1]; exact h)

theorem initGameState_maxHeight (scr : Screen) (rand : ℕ → Draw) :
    (initGameState scr rand).maxHeight = 0 := rfl

theorem applyAction_scoreInv (scr : Screen) (f : Frame) (a : Action) (h : ScoreInv f.c) :
    ScoreInv (applyAction scr f a).c := by
  cases a with
  | input i => exact applyInput_scoreInv scr f i h
  | restart rand =>
    show (0 : ℤ) = ⌊(initGameState scr rand).maxHeight / 10⌋
    rw [initGameState_maxHeight]
    simp

theorem runActions_scoreInv (scr : Screen) (actions : List Action) (f : Frame)
    (h : ScoreInv f.c) : ScoreInv (runActions scr f actions).c := by
  induction actions generalizing f with
  | nil => exact h
  | cons a rest ih => exact ih (applyAction scr f a) (applyAction_scoreInv scr f a h)

theorem handleKeyDown_maxHeight (c : Component) (key : String) :
    (handleKeyDown c key).gameStateRef.maxHeight = c.gameStateRef.maxHeight := by
  rcases handleKeyDown_cases c key with h1 | ⟨v, h1⟩ <;> simp [h1, setVelocityX]

theorem handleKeyUp_maxHeight (c : Component) (key : String) :
    (handleKeyUp c key).gameStateRef.maxHeight = c.gameStateRef.maxHeight := by
  rcases handleKeyUp_cases c key with h1 | ⟨v, h1⟩ <;> simp [h1, setVelocityX]

theorem applyInput_maxHeight_ge (scr : Screen) (f : Frame) (i : Input) :
    f.c.gameStateRef.maxHeight ≤ (applyInput scr f i).c.gameStateRef.maxHeight := by
  cases i with
  | tick => exact tick_maxHeight_ge scr f.c
  | keyDown key => exact le_of_eq (handleKeyDown_maxHeight f.c key).symm
  | keyUp key => exact le_of_eq (handleKeyUp_maxHeight f.c key).symm

theorem runSession_maxHeight_ge (scr : Screen) (inputs : List Input) (f : Frame) :
    f.c.gameStateRef.maxHeight ≤ (runSession scr f inputs).c.gameStateRef.maxHeight := by
  induction inputs generalizing f with
  | nil => exact le_refl _
  | cons i rest ih => exact le_trans (applyInput_maxHeight_ge scr f i) (ih (applyInput scr f i))

/-! ## The generated world -/

theorem numPlatforms_eq : numPlatforms = 200 := by
  unfold numPlatforms WINNING_SCORE PLATFORM_SPACING
  norm_num
  rfl

theorem initPlatforms_eq (scr : Screen) (rand : ℕ → Draw) :
    initPlatforms scr rand = (List.range 200).map (platformAt scr rand) := by
  unfold initPlatforms
  rw [numPlatforms_eq]

theorem initPlatforms_getElem? (scr : Screen) (rand : ℕ → Draw) (i : ℕ) (h : i < 200) :
    (initPlatforms scr rand)[i]? = some (platformAt scr rand i) := by
  rw [initPlatforms_eq, List.getElem?_map, List.getElem?_range h]
  rfl

theorem headD_map_range {α : Type} (n : ℕ) (g : ℕ → α) (d : α) (h : 0 < n) :
    ((List.range n).map g).headD d = g 0 := by
  cases n with
  | zero => cases h
  | succ m => simp [List.range_succ_eq_map]

theorem initGameState_player (scr : Screen) (rand : ℕ → Draw) :
    (initGameState scr rand).player =
      ⟨(platformAt scr rand 0).x + 55, scr.SCREEN_HEIGHT - 70, 0, 0, false⟩ := by
  unfold initGameState
  dsimp only
  rw [initPlatforms_eq, headD_map_range 200 _ _ (by norm_num)]
  simp only [platformAt, PLATFORM_WIDTH, PLAYER_SIZE, PLATFORM_SPACING, Player.mk.injEq]
  norm_num
  ring

theorem freshGame_player : freshGame.gameStateRef.player = ⟨380, 530, 0, 0, false⟩ := by
  have h : freshGame.gameStateRef = initGameState demoScreen fun _ => halfDraw := rfl
  rw [h, initGameState_player]
  simp only [platformAt, halfDraw, demoScreen, PLATFORM_WIDTH, Player.mk.injEq]
  norm_num

theorem enum_map_range {α : Type} (n : ℕ) (g : ℕ → α) :
    ((List.range n).map g).enum = (List.range n).map fun i => (i, g i) := by
  apply List.ext_getElem?
  intro i
  rw [List.getElem?_enum]
  simp only [List.getElem?_map]
  by_cases h : i < n
  · simp [List.getElem?_range h]
  · simp [List.getElem?_eq_none (l := List.range n) (by simpa using h)]

/-- The indices `initEnemies` keeps among 200 platforms. -/
theorem keptIndices :
    ((List.range 200).filter fun i => i % 10 == 0 && i != 0) =
      (List.range 19).map fun k => 10 * (k + 1) := by
  decide

theorem initEnemies_range (rand : ℕ → Draw) (base : ℕ) (g : ℕ → Platform) :
    initEnemies rand base ((List.range 200).map g) =
      (List.range 19).map fun k => enemyOn rand base k (g (10 * (k + 1))) := by
  unfold initEnemies
  rw [enum_map_range, List.filter_map]
  have h1 : ((fun ip : ℕ × Platform => ip.1 % 10 == 0 && ip.1 != 0) ∘ fun i => (i, g i)) =
      fun i => i % 10 == 0 && i != 0 := rfl
  rw [h1, keptIndices, List.map_map, List.map_map]
  have h2 : ((Prod.snd ∘ fun i => (i, g i)) ∘ fun k => 10 * (k + 1)) =
      fun k => g (10 * (k + 1)) := rfl
  rw [h2, enum_map_range, List.map_map]
  rfl

theorem initGameState_platforms (scr : Screen) (rand : ℕ → Draw) :
    (initGameState scr rand).platforms = initPlatforms scr rand := rfl

theorem initGameState_enemies (scr : Screen) (rand : ℕ → Draw) :
    (initGameState scr rand).enemies =
      (List.range 19).map fun k => enemyOn rand 400 k (platformAt scr rand (10 * (k + 1))) := by
  show initEnemies rand (2 * numPlatforms) (initPlatforms scr rand) = _
  rw [initPlatforms_eq, numPlatforms_eq, initEnemies_range]

theorem enemyOn_direction (rand : ℕ → Draw) (base k : ℕ) (p : Platform) :
    (enemyOn rand base k p).direction = 1 ∨ (enemyOn rand base k p).direction = -1 := by
  unfold enemyOn
  dsimp only
  split_ifs
  · exact Or.inr rfl
  · exact Or.inl rfl

theorem platformCollision_x (pls : List Platform) (p : Player) :
    (platformCollision p pls).x = p.x := by
  induction pls generalizing p with
  | nil => rfl
  | cons pl rest ih =>
    show (platformCollision (platformStep p pl) rest).x = p.x
    rw [ih, platformStep_x]

/-- The x of the player after a tick. -/
theorem tick_x (scr : Screen) (c : Component) :
    (tick scr c).gameStateRef.player.x =
      wrapX scr (c.gameStateRef.player.x + c.gameStateRef.player.velocityX) := by
  rw [tick_player, platformCollision_x, updatePlayerPhysics_x]

/-! ## C4: the score is the floor of a tenth of the maximum height -/

/-- C4: in every state reached from the mounted component (`initGameState`, score 0,
maximum height 0) by any sequence of ticks, key events and restarts, the `score` hook
equals `floor(maxHeight / 10)`. -/
theorem C4_score_is_floor_of_maxHeight (scr : Screen) (rand : ℕ → Draw) (actions : List Action) :
    (runActions scr ⟨mount scr rand, []⟩ actions).c.score =
      ⌊(runActions scr ⟨mount scr rand, []⟩ actions).c.gameStateRef.maxHeight / 10⌋ := by
  apply runActions_scoreInv
  show (0 : ℤ) = ⌊(initGameState scr rand).maxHeight / 10⌋
  rw [initGameState_maxHeight]
  simp

/-! ## C5: the maximum height never decreases in a session -/

/-- C5: the maximum height after a tick is at least the maximum height before it, and
so is the maximum height after any sequence of ticks and key events of one session. -/
theorem C5_maxHeight_monotone (scr : Screen) (c : Component) :
    c.gameStateRef.maxHeight ≤ (tick scr c).gameStateRef.maxHeight ∧
    ∀ inputs : List Input,
      c.gameStateRef.maxHeight ≤ (runSession scr ⟨c, []⟩ inputs).c.gameStateRef.maxHeight :=
  ⟨tick_maxHeight_ge scr c, fun inputs => runSession_maxHeight_ge scr inputs ⟨c, []⟩⟩

/-! ## C6: when the maximum height is updated -/

/-- C6, as the code has it: with `y'` the player's y after integration, the maximum
height after a tick is `max(maxHeight, max(0, SCREEN_HEIGHT - y'))` when `y'` is above
the midpoint of the viewport (`y' < SCREEN_HEIGHT / 2`), and is the maximum height
before the tick otherwise. -/
theorem C6_maxHeight_update_above_midpoint (scr : Screen) (c : Component) :
    let y' := c.gameStateRef.player.y + c.gameStateRef.player.velocityY
    (y' < scr.SCREEN_HEIGHT / 2 →
      (tick scr c).gameStateRef.maxHeight =
        max c.gameStateRef.maxHeight (max 0 (scr.SCREEN_HEIGHT - y'))) ∧
    (scr.SCREEN_HEIGHT / 2 ≤ y' →
      (tick scr c).gameStateRef.maxHeight = c.gameStateRef.maxHeight) := by
  intro y'
  constructor
  · intro h
    rw [tick_maxHeight, if_pos h]
  · intro h
    rw [tick_maxHeight, if_neg (not_lt.mpr h)]

theorem C6_maxHeight_update_above_midpoint_witness :
    (tick demoScreen risingAboveMidpoint).gameStateRef.maxHeight = max 500 (max 0 (600 - 88)) := by
  have h := (C6_maxHeight_update_above_midpoint demoScreen risingAboveMidpoint).1
    (by norm_num [risingAboveMidpoint, demoScreen])
  rw [h]
  norm_num [risingAboveMidpoint, demoScreen]

/-- C6 as stated fails on the first tick of a fresh game on an 800x600 screen: the
player rests at y = 530, below the midpoint 300, the candidate height is 70 and the
stored maximum height stays 0. -/
theorem C6_counterexample :
    freshGame.gameStateRef.maxHeight = 0 ∧
    freshGame.gameStateRef.player.y + freshGame.gameStateRef.player.velocityY = 530 ∧
    (tick demoScreen freshGame).gameStateRef.maxHeight = 0 ∧
    (tick demoScreen freshGame).gameStateRef.maxHeight ≠
      max freshGame.gameStateRef.maxHeight
        (max 0 (demoScreen.SCREEN_HEIGHT -
          (freshGame.gameStateRef.player.y + freshGame.gameStateRef.player.velocityY))) := by
  have hm : freshGame.gameStateRef.maxHeight = 0 := rfl
  have hy : freshGame.gameStateRef.player.y + freshGame.gameStateRef.player.velocityY = 530 := by
    rw [freshGame_player]; norm_num
  have ht : (tick demoScreen freshGame).gameStateRef.maxHeight = 0 := by
    rw [tick_maxHeight, hy, hm, if_neg (by norm_num [demoScreen])]
  refine ⟨hm, hy, ht, ?_⟩
  rw [ht, hy, hm]
  norm_num [demoScreen]

/-! ## C7: the screen wrap -/

/-- C7, as the code has it, for a screen of width `W > 0`: if the horizontal move gives
`x + velocityX < 0`, the player's x after the tick is `W`; if it gives
`x + velocityX > W`, the x after the tick is `0`; and otherwise it is `x + velocityX`. -/
theorem C7_wrap_to_opposite_edge (scr : Screen) (c : Component) (hW : 0 < scr.SCREEN_WIDTH) :
    let x1 := c.gameStateRef.player.x + c.gameStateRef.player.velocityX
    (x1 < 0 → (tick scr c).gameStateRef.player.x = scr.SCREEN_WIDTH) ∧
    (x1 > scr.SCREEN_WIDTH → (tick scr c).gameStateRef.player.x = 0) ∧
    (0 ≤ x1 → x1 ≤ scr.SCREEN_WIDTH → (tick scr c).gameStateRef.player.x = x1) := by
  intro x1
  refine ⟨?_, ?_, ?_⟩
  · intro h
    rw [tick_x]
    unfold wrapX
    rw [if_pos h]
  · intro h
    have h0 : ¬ x1 < 0 := not_lt.mpr (le_of_lt (lt_trans hW h))
    rw [tick_x]
    unfold wrapX
    rw [if_neg h0, if_pos h]
  · intro h0 h1
    rw [tick_x]
    unfold wrapX
    rw [if_neg (not_lt.mpr h0), if_neg (not_lt.mpr h1)]

theorem C7_wrap_to_opposite_edge_witness :
    (tick demoScreen leavingLeft).gameStateRef.player.x = 800 :=
  (C7_wrap_to_opposite_edge demoScreen leavingLeft (by norm_num [demoScreen])).1
    (by norm_num [leavingLeft, running])

/-- C7 as stated fails at both edges of an 800 wide screen. From x = 1 with velocity
-3.5 the move gives -2.5 and the x after the tick is 800, which is not
`800 + (-2.5) = 797.5`, nor equal to it up to a multiple of 800. From x = 799 with
velocity 3.5 the move gives 802.5 and the x after the tick is 0, not `802.5 - 800`. -/
theorem C7_counterexample :
    (leavingLeft.gameStateRef.player.x + leavingLeft.gameStateRef.player.velocityX = -5 / 2 ∧
      (tick demoScreen leavingLeft).gameStateRef.player.x = 800 ∧
      ¬ ∃ k : ℤ, (tick demoScreen leavingLeft).gameStateRef.player.x =
        demoScreen.SCREEN_WIDTH +
          (leavingLeft.gameStateRef.player.x + leavingLeft.gameStateRef.player.velocityX) +
          k * demoScreen.SCREEN_WIDTH) ∧
    (leavingRight.gameStateRef.player.x + leavingRight.gameStateRef.player.velocityX = 1605 / 2 ∧
      (tick demoScreen leavingRight).gameStateRef.player.x = 0 ∧
      (tick demoScreen leavingRight).gameStateRef.player.x ≠
        leavingRight.gameStateRef.player.x + leavingRight.gameStateRef.player.velocityX -
          demoScreen.SCREEN_WIDTH) := by
  have hl : leavingLeft.gameStateRef.player.x + leavingLeft.gameStateRef.player.velocityX =
      -5 / 2 := by norm_num [leavingLeft, running]
  have hr : leavingRight.gameStateRef.player.x + leavingRight.gameStateRef.player.velocityX =
      1605 / 2 := by norm_num [leavingRight, running]
  have tl : (tick demoScreen leavingLeft).gameStateRef.player.x = 800 := by
    rw [tick_x, hl]; norm_num [wrapX, demoScreen]
  have tr : (tick demoScreen leavingRight).gameStateRef.player.x = 0 := by
    rw [tick_x, hr]; norm_num [wrapX, demoScreen]
  refine ⟨⟨hl, tl, ?_⟩, hr, tr, ?_⟩
  · rintro ⟨k, hk⟩
    rw [tl, hl] at hk
    have h2 : (320 * k : ℚ) = 1 := by
      simp only [demoScreen] at hk
      linarith
    have h3 : (320 * k : ℤ) = 1 := by exact_mod_cast h2
    omega
  · rw [tr, hr]
    norm_num [demoScreen]

/-! ## C8: the patrol of the enemies -/

theorem enemyLoop_of_not_hit (scr : Screen) (t : Bool) (p : Player) (es : List Enemy)
    (h : (enemyLoop scr t p es).2 = false) :
    (enemyLoop scr t p es).1 = es.map (moveEnemy scr) := by
  induction es with
  | nil => rfl
  | cons e rest ih =>
    have hstep : enemyLoop scr t p (e :: rest) =
        if (!t && hitsPlayer p (moveEnemy scr e)) = true then (moveEnemy scr e :: rest, true)
        else (moveEnemy scr e :: (enemyLoop scr t p rest).1, (enemyLoop scr t p rest).2) := rfl
    rw [hstep] at h ⊢
    by_cases hc : (!t && hitsPlayer p (moveEnemy scr e)) = true
    · rw [if_pos hc] at h
      exact absurd h (by simp)
    · rw [if_neg hc] at h ⊢
      show moveEnemy scr e :: (enemyLoop scr t p rest).1 = _
      rw [ih h]
      rfl

theorem enemyPhase_enemies (scr : Screen) (f : Frame) :
    (enemyPhase scr f).c.gameStateRef.enemies =
      (enemyLoop scr f.c.gameOverTriggered f.c.gameStateRef.player f.c.gameStateRef.enemies).1 := by
  unfold enemyPhase; dsimp only; split_ifs <;> rfl

theorem cameraScorePhase_enemies (scr : Screen) (f : Frame) :
    (cameraScorePhase scr f).c.gameStateRef.enemies = f.c.gameStateRef.enemies := by
  unfold cameraScorePhase; dsimp only; split_ifs <;> rfl

theorem tick_enemies (scr : Screen) (c : Component) :
    (tick scr c).gameStateRef.enemies =
      (enemyLoop scr c.gameOverTriggered (updatePlayerPhysics scr c.gameStateRef.player)
        c.gameStateRef.enemies).1 := by
  unfold tick
  rw [gameLoop_eq, fallOffPhase_gameStateRef, cameraScorePhase_enemies]
  show (enemyPhase scr _).c.gameStateRef.enemies = _
  rw [enemyPhase_enemies]
  rfl

theorem tick_enemies_of_uncut (scr : Screen) (c : Component) (h : loopCut scr c = false) :
    (tick scr c).gameStateRef.enemies = c.gameStateRef.enemies.map (moveEnemy scr) := by
  rw [tick_enemies]
  exact enemyLoop_of_not_hit scr _ _ _ h

theorem iterate_tick_enemies (scr : Screen) (c : Component) (n : ℕ)
    (h : ∀ k, k < n → loopCut scr ((tick scr)^[k] c) = false) :
    ((tick scr)^[n] c).gameStateRef.enemies = c.gameStateRef.enemies.map (moveEnemy scr)^[n] := by
  induction n with
  | zero => simp
  | succ m ih =>
    rw [Function.iterate_succ_apply', tick_enemies_of_uncut scr _ (h m (Nat.lt_succ_self m)),
      ih (fun k hk => h k (Nat.lt_succ_of_lt hk)), List.map_map]
    congr 1
    funext e
    simp only [Function.comp_apply, Function.iterate_succ_apply']

theorem PatrolInv.moveEnemy {scr : Screen} {e : Enemy} (h : PatrolInv scr e) :
    PatrolInv scr (moveEnemy scr e) := by
  obtain ⟨hw, hd, hlo, hhi, hneg, hbig⟩ := h
  unfold PatrolInv PacJump.moveEnemy
  dsimp only
  rcases hd with hd | hd
  · have hx : e.x ≤ scr.SCREEN_WIDTH - 30 := by
      by_contra hc
      have := hbig (not_le.mp hc)
      rw [hd] at this
      norm_num at this
    rw [hd, hw]
    refine ⟨rfl, ?_, by linarith, by linarith, ?_, ?_⟩
    · split_ifs <;> norm_num
    · intro hlt; linarith
    · intro hgt
      rw [if_pos (Or.inr (by linarith))]
      norm_num
  · have hx : 0 ≤ e.x := by
      by_contra hc
      have := hneg (not_le.mp hc)
      rw [hd] at this
      norm_num at this
    rw [hd, hw]
    refine ⟨rfl, ?_, by linarith, by linarith, ?_, ?_⟩
    · split_ifs <;> norm_num
    · intro hlt
      rw [if_pos (Or.inl (by linarith))]
      norm_num
    · intro hgt; linarith

theorem PatrolInv.iterate {scr : Screen} {e : Enemy} (h : PatrolInv scr e) (n : ℕ) :
    PatrolInv scr ((PacJump.moveEnemy scr)^[n] e) := by
  induction n with
  | zero => exact h
  | succ m ih =>
    rw [Function.iterate_succ_apply']
    exact ih.moveEnemy

/-- C8, as the code has it: take any number `n` of ticks in none of which a collision
cuts the enemy loop short. An enemy of width 30 that starts with x in
`[0, SCREEN_WIDTH - 30]` and direction +1 or -1 has, after the `n` ticks, x in
`[-1.5, SCREEN_WIDTH - 30 + 1.5]`, width 30 and direction +1 or -1. In each of these
ticks every enemy moves by `direction * 1.5`, and its direction is inverted if its moved
box reaches a screen edge (`x <= 0` or `x + width >= SCREEN_WIDTH`) and kept if not. -/
theorem C8_patrol_overshoot_bounded (scr : Screen) (c : Component) (n : ℕ)
    (huncut : ∀ k, k < n → loopCut scr ((tick scr)^[k] c) = false) :
    (∀ (i : ℕ) (e : Enemy), c.gameStateRef.enemies[i]? = some e →
      e.width = 30 → 0 ≤ e.x → e.x ≤ scr.SCREEN_WIDTH - 30 →
      (e.direction = 1 ∨ e.direction = -1) →
      ∃ e' : Enemy, ((tick scr)^[n] c).gameStateRef.enemies[i]? = some e' ∧
        -3 / 2 ≤ e'.x ∧ e'.x ≤ scr.SCREEN_WIDTH - 30 + 3 / 2 ∧
        e'.width = 30 ∧ (e'.direction = 1 ∨ e'.direction = -1)) ∧
    (∀ k, k < n → ∀ (i : ℕ) (e : Enemy), ((tick scr)^[k] c).gameStateRef.enemies[i]? = some e →
      ∃ e' : Enemy, ((tick scr)^[k + 1] c).gameStateRef.enemies[i]? = some e' ∧
        e'.x = e.x + e.direction * (3 / 2) ∧
        e'.direction =
          (if e'.x ≤ 0 ∨ e'.x + e.width ≥ scr.SCREEN_WIDTH then -e.direction else e.direction)) := by
  constructor
  · intro i e hi hw h0 h1 hd
    have hinv : PatrolInv scr e :=
      ⟨hw, hd, by linarith, by linarith, fun h => absurd h0 (not_le.mpr h),
        fun h => absurd h1 (not_le.mpr h)⟩
    obtain ⟨hw', hd', hlo, hhi, _, _⟩ := hinv.iterate n
    refine ⟨(moveEnemy scr)^[n] e, ?_, hlo, hhi, hw', hd'⟩
    rw [iterate_tick_enemies scr c n huncut, List.getElem?_map, hi]
    rfl
  · intro k hk i e hi
    refine ⟨moveEnemy scr e, ?_, rfl, ?_⟩
    · rw [Function.iterate_succ_apply', tick_enemies_of_uncut scr _ (huncut k hk),
        List.getElem?_map, hi]
      rfl
    · unfold moveEnemy
      dsimp only
      split_ifs <;> ring

theorem C8_patrol_overshoot_bounded_witness :
    ∃ e' : Enemy, ((tick demoScreen)^[1] enemyNearLeftEdge).gameStateRef.enemies[0]? = some e' ∧
      -3 / 2 ≤ e'.x ∧ e'.x ≤ demoScreen.SCREEN_WIDTH - 30 + 3 / 2 ∧
      e'.width = 30 ∧ (e'.direction = 1 ∨ e'.direction = -1) :=
  (C8_patrol_overshoot_bounded demoScreen enemyNearLeftEdge 1
    (by
      intro k hk
      have hk0 : k = 0 := by omega
      subst hk0
      norm_num [loopCut, enemyNearLeftEdge, running, enemyLoop, hitsPlayer, moveEnemy,
        updatePlayerPhysics, PLAYER_SIZE, demoScreen])).1
    0 ⟨1, 300, 30, 30, -1, "#FF0000"⟩ rfl rfl (by norm_num) (by norm_num [demoScreen])
    (Or.inr rfl)

/-- C8 as stated fails for an enemy one unit from the left edge of an 800 wide screen
and moving left: it starts with x = 1 in `[0, 770]`, no collision cuts the loop short,
and after one tick its x is -0.5. -/
theorem C8_counterexample :
    enemyNearLeftEdge.gameStateRef.enemies = [⟨1, 300, 30, 30, -1, "#FF0000"⟩] ∧
    loopCut demoScreen enemyNearLeftEdge = false ∧
    (tick demoScreen enemyNearLeftEdge).gameStateRef.enemies =
      [⟨-1 / 2, 300, 30, 30, 1, "#FF0000"⟩] ∧
    ¬ ∀ e' ∈ (tick demoScreen enemyNearLeftEdge).gameStateRef.enemies,
      0 ≤ e'.x ∧ e'.x ≤ demoScreen.SCREEN_WIDTH - 30 := by
  have hcut : loopCut demoScreen enemyNearLeftEdge = false := by
    norm_num [loopCut, enemyNearLeftEdge, running, enemyLoop, hitsPlayer, moveEnemy,
        updatePlayerPhysics, PLAYER_SIZE, demoScreen]
  have ht : (tick demoScreen enemyNearLeftEdge).gameStateRef.enemies =
      [⟨-1 / 2, 300, 30, 30, 1, "#FF0000"⟩] := by
    rw [tick_enemies_of_uncut _ _ hcut]
    simp only [enemyNearLeftEdge, running, List.map, moveEnemy, demoScreen]
    norm_num
  refine ⟨rfl, hcut, ht, ?_⟩
  rw [ht]
  intro h
  have := (h _ (List.mem_singleton_self _)).1
  norm_num at this

/-! ## C9: the camera offset -/

/-- C9, as the code has it: with `y'` the player's y after integration, the camera
offset after a tick is `SCREEN_HEIGHT / 2 - y'` when `y' < SCREEN_HEIGHT / 2` and is
unchanged otherwise; so it does not decrease in a tick in which the player ends at or
below the midpoint, or at least as high as the camera offset before the tick shows. -/
theorem C9_camera_follows_above_midpoint (scr : Screen) (c : Component) :
    let y' := c.gameStateRef.player.y + c.gameStateRef.player.velocityY
    (tick scr c).gameStateRef.cameraY =
      (if y' < scr.SCREEN_HEIGHT / 2 then scr.SCREEN_HEIGHT / 2 - y' else c.gameStateRef.cameraY) ∧
    (scr.SCREEN_HEIGHT / 2 ≤ y' ∨ c.gameStateRef.cameraY ≤ scr.SCREEN_HEIGHT / 2 - y' →
      c.gameStateRef.cameraY ≤ (tick scr c).gameStateRef.cameraY) := by
  intro y'
  refine ⟨tick_cameraY scr c, ?_⟩
  intro h
  rw [tick_cameraY]
  split_ifs with h1
  · rcases h with h | h
    · exact absurd h1 (not_lt.mpr h)
    · exact h
  · exact le_refl _

theorem C9_camera_follows_above_midpoint_witness :
    risingAboveMidpoint.gameStateRef.cameraY ≤
      (tick demoScreen risingAboveMidpoint).gameStateRef.cameraY :=
  (C9_camera_follows_above_midpoint demoScreen risingAboveMidpoint).2
    (Or.inr (by norm_num [risingAboveMidpoint, demoScreen]))

/-- C9 as stated fails when the player moves down while above the midpoint: on a 600
high screen, from y = 100 (camera offset 200) with velocity 10, the camera offset after
the tick is 190. -/
theorem C9_counterexample :
    descendingAboveMidpoint.gameStateRef.cameraY = 200 ∧
    (tick demoScreen descendingAboveMidpoint).gameStateRef.cameraY = 190 ∧
    ¬ (descendingAboveMidpoint.gameStateRef.cameraY ≤
      (tick demoScreen descendingAboveMidpoint).gameStateRef.cameraY) := by
  have ht : (tick demoScreen descendingAboveMidpoint).gameStateRef.cameraY = 190 := by
    rw [tick_cameraY]
    norm_num [descendingAboveMidpoint, demoScreen]
  refine ⟨rfl, ht, ?_⟩
  rw [ht]
  norm_num [descendingAboveMidpoint]

/-! ## C10: restart -/

/-- C10: whatever the state and the draws, `handleRestart` gives score 0, camera offset
0, maximum height 0, latch and `gameOver` cleared, a player at rest and not jumping at
`x = platforms[0].x + 55`, `y = SCREEN_HEIGHT - 70`, on the list `initPlatforms` makes
from the new draws: 200 platforms, platform `i` at `y = SCREEN_HEIGHT - 60 * i`, with 19
enemies, the `k`-th one a 30x30 box centred on platform `10 * (k + 1)` and standing on
it, moving left or right; the high score is unchanged. -/
theorem C10_restart_resets (scr : Screen) (rand : ℕ → Draw) (c : Component) :
    let c' := handleRestart scr rand c
    let s := c'.gameStateRef
    c'.score = 0 ∧ s.cameraY = 0 ∧ s.maxHeight = 0 ∧
    c'.gameOverTriggered = false ∧ c'.gameOver = false ∧
    s.player.velocityX = 0 ∧ s.player.velocityY = 0 ∧ s.player.isJumping = false ∧
    s.platforms = initPlatforms scr rand ∧ s.platforms.length = 200 ∧
    (∀ i : ℕ, i < 200 →
      ∃ p : Platform, s.platforms[i]? = some p ∧ p.y = scr.SCREEN_HEIGHT - 60 * (i : ℚ)) ∧
    (∃ p0 : Platform, s.platforms[0]? = some p0 ∧ s.player.x = p0.x + 55) ∧
    s.player.y = scr.SCREEN_HEIGHT - 70 ∧
    s.enemies.length = 19 ∧
    (∀ k : ℕ, k < 19 → ∃ (e : Enemy) (p : Platform),
      s.enemies[k]? = some e ∧ s.platforms[10 * (k + 1)]? = some p ∧
      e.x = p.x + 60 ∧ e.y = p.y - 30 ∧ e.width = 30 ∧ e.height = 30 ∧
      (e.direction = 1 ∨ e.direction = -1)) ∧
    c'.highScore = c.highScore := by
  intro c' s
  have hs : s = initGameState scr rand := rfl
  have hp : s.player = ⟨(platformAt scr rand 0).x + 55, scr.SCREEN_HEIGHT - 70, 0, 0, false⟩ := by
    rw [hs, initGameState_player]
  have hpl : s.platforms = initPlatforms scr rand := rfl
  refine ⟨rfl, rfl, rfl, rfl, rfl, ?_, ?_, ?_, hpl, ?_, ?_, ?_, ?_, ?_, ?_, rfl⟩
  · rw [hp]
  · rw [hp]
  · rw [hp]
  · rw [hpl, initPlatforms_eq]; simp
  · intro i hi
    refine ⟨platformAt scr rand i, ?_, ?_⟩
    · rw [hpl]; exact initPlatforms_getElem? scr rand i hi
    · simp only [platformAt, PLATFORM_SPACING]; ring
  · refine ⟨platformAt scr rand 0, ?_, ?_⟩
    · rw [hpl]; exact initPlatforms_getElem? scr rand 0 (by norm_num)
    · rw [hp]
  · rw [hp]
  · rw [hs, initGameState_enemies]; simp
  · intro k hk
    refine ⟨enemyOn rand 400 k (platformAt scr rand (10 * (k + 1))),
      platformAt scr rand (10 * (k + 1)), ?_, ?_, ?_, ?_, rfl, rfl, enemyOn_direction _ _ _ _⟩
    · rw [hs, initGameState_enemies, List.getElem?_map, List.getElem?_range hk]
      rfl
    · rw [hpl]; exact initPlatforms_getElem? scr rand _ (by omega)
    · simp only [enemyOn, PLATFORM_WIDTH]; ring
    · rfl

theorem C10_restart_resets_witness :
    ∃ p : Platform,
      (handleRestart demoScreen (fun _ => halfDraw) latchedAfterLoss).gameStateRef.platforms[10]?
        = some p ∧ p.y = demoScreen.SCREEN_HEIGHT - 60 * ((10 : ℕ) : ℚ) :=
  (C10_restart_resets demoScreen (fun _ => halfDraw) latchedAfterLoss).2.2.2.2.2.2.2.2.2.2.1
    10 (by norm_num)

/-! ## C11: one platform per tick in a generated world -/

theorem onPlatform.inBand {x y : ℚ} {p : Platform} (h : onPlatform x y p) : inBand y p :=
  ⟨h.1, h.2.1⟩

theorem platformAt_y (scr : Screen) (rand : ℕ → Draw) (i : ℕ) :
    (platformAt scr rand i).y = scr.SCREEN_HEIGHT - 60 * (i : ℚ) := by
  simp only [platformAt, PLATFORM_SPACING]
  ring

/-- Two platforms of the generated list that pass the band test at the same height
have the same index. -/
theorem platformAt_band_unique (scr : Screen) (rand : ℕ → Draw) (y : ℚ) (i j : ℕ)
    (hi : inBand y (platformAt scr rand i)) (hj : inBand y (platformAt scr rand j)) : i = j := by
  obtain ⟨h1, h2⟩ := hi
  obtain ⟨h3, h4⟩ := hj
  rw [platformAt_y] at h1 h2 h3 h4
  have a : (i : ℚ) < (j : ℚ) + 1 := by linarith
  have b : (j : ℚ) < (i : ℚ) + 1 := by linarith
  have a' : i < j + 1 := by exact_mod_cast a
  have b' : j < i + 1 := by exact_mod_cast b
  omega

theorem initPlatforms_index (scr : Screen) (rand : ℕ → Draw) (i : ℕ) (p : Platform)
    (h : (initPlatforms scr rand)[i]? = some p) : p = platformAt scr rand i := by
  have hlen : (initPlatforms scr rand).length = 200 := by
    rw [initPlatforms_eq]; simp
  have hi : i < 200 := by
    by_contra hc
    rw [List.getElem?_eq_none (by rw [hlen]; exact not_lt.mp hc)] at h
    cases h
  rw [initPlatforms_getElem? scr rand i hi] at h
  exact (Option.some.inj h).symm

theorem initPlatforms_mem (scr : Screen) (rand : ℕ → Draw) (p : Platform)
    (h : p ∈ initPlatforms scr rand) : ∃ i, p = platformAt scr rand i := by
  rw [initPlatforms_eq] at h
  obtain ⟨i, _, hi⟩ := List.mem_map.mp h
  exact ⟨i, hi.symm⟩

theorem initPlatforms_band_unique (scr : Screen) (rand : ℕ → Draw) (y : ℚ) (p q : Platform)
    (hp : p ∈ initPlatforms scr rand) (hq : q ∈ initPlatforms scr rand)
    (hpb : inBand y p) (hqb : inBand y q) : p = q := by
  obtain ⟨i, rfl⟩ := initPlatforms_mem scr rand p hp
  obtain ⟨j, rfl⟩ := initPlatforms_mem scr rand q hq
  rw [platformAt_band_unique scr rand y i j hpb hqb]

theorem bouncers_of_not_falling (pls : List Platform) (p : Player) (hv : p.velocityY ≤ 0) :
    bouncers p pls = [] := by
  induction pls with
  | nil => rfl
  | cons pl rest ih =>
    unfold bouncers
    rw [if_neg (fun hc => absurd hc.2.2.2.2 (not_lt.mpr hv)),
      platformStep_of_not p pl (fun h => absurd h.2 (not_lt.mpr hv))]
    exact ih

theorem bouncers_length_le_one (pls : List Platform) (p : Player) :
    (bouncers p pls).length ≤ 1 := by
  induction pls with
  | nil => simp [bouncers]
  | cons pl rest ih =>
    unfold bouncers
    split_ifs with hc
    · have hon : onPlatform p.x p.y pl := by
        obtain ⟨h1, h2, h3, h4, _⟩ := hc
        simp only [PLAYER_SIZE, PLATFORM_HEIGHT, PLATFORM_WIDTH] at h1 h2 h3 h4
        exact ⟨h1, by linarith, h3, h4⟩
      rw [platformStep_of_on p pl hon hc.2.2.2.2,
        bouncers_of_not_falling rest _ (le_of_lt (jumpForce_neg _))]
      simp
    · have hstep : platformStep p pl = p := by
        unfold platformStep
        rw [if_neg hc]
      rw [hstep]
      exact ih

/-- In a list in which at most one platform passes the band test at the player's
height, the platform loop gives the same player in any order of iteration. -/
theorem platformCollision_perm (pls pls' : List Platform) (p : Player) (hperm : pls'.Perm pls)
    (huniq : ∀ q r, q ∈ pls → r ∈ pls → inBand p.y q → inBand p.y r → q = r) :
    platformCollision p pls' = platformCollision p pls := by
  by_cases hv : p.velocityY > 0
  · by_cases hex : ∃ q ∈ pls, onPlatform p.x p.y q
    · have hex' : ∃ q ∈ pls', onPlatform p.x p.y q := by
        obtain ⟨q, hq, hon⟩ := hex
        exact ⟨q, hperm.mem_iff.mpr hq, hon⟩
      obtain ⟨q, hq, hqon, hres⟩ := platformCollision_of_some pls p hv hex
      obtain ⟨r, hr, hron, hres'⟩ := platformCollision_of_some pls' p hv hex'
      rw [hres, hres', huniq q r hq (hperm.mem_iff.mp hr) hqon.inBand hron.inBand]
    · have hnone : ∀ q ∈ pls, ¬ onPlatform p.x p.y q := fun q hq hon => hex ⟨q, hq, hon⟩
      have hnone' : ∀ q ∈ pls', ¬ onPlatform p.x p.y q :=
        fun q hq hon => hex ⟨q, hperm.mem_iff.mp hq, hon⟩
      rw [platformCollision_of_none pls p hnone, platformCollision_of_none pls' p hnone']
  · rw [platformCollision_of_not_falling pls p (not_lt.mp hv),
      platformCollision_of_not_falling pls' p (not_lt.mp hv)]

theorem cameraScorePhase_platforms (scr : Screen) (f : Frame) :
    (cameraScorePhase scr f).c.gameStateRef.platforms = f.c.gameStateRef.platforms := by
  unfold cameraScorePhase; dsimp only; split_ifs <;> rfl

theorem tick_platforms (scr : Screen) (c : Component) :
    (tick scr c).gameStateRef.platforms = c.gameStateRef.platforms := by
  unfold tick
  rw [gameLoop_eq, fallOffPhase_gameStateRef, cameraScorePhase_platforms]
  show (enemyPhase scr _).c.gameStateRef.platforms = _
  rw [enemyPhase_platforms]
  rfl

theorem handleKeyDown_platforms (c : Component) (key : String) :
    (handleKeyDown c key).gameStateRef.platforms = c.gameStateRef.platforms := by
  rcases handleKeyDown_cases c key with h1 | ⟨v, h1⟩ <;> simp [h1, setVelocityX]

theorem handleKeyUp_platforms (c : Component) (key : String) :
    (handleKeyUp c key).gameStateRef.platforms = c.gameStateRef.platforms := by
  rcases handleKeyUp_cases c key with h1 | ⟨v, h1⟩ <;> simp [h1, setVelocityX]

/-- The platform list of a state reached by a run is a list `initPlatforms` made. -/
theorem runActions_platforms (scr : Screen) (actions : List Action) (f : Frame)
    (h : ∃ rand, f.c.gameStateRef.platforms = initPlatforms scr rand) :
    ∃ rand, (runActions scr f actions).c.gameStateRef.platforms = initPlatforms scr rand := by
  induction actions generalizing f with
  | nil => exact h
  | cons a rest ih =>
    apply ih (applyAction scr f a)
    cases a with
    | input i =>
      obtain ⟨rand, hr⟩ := h
      refine ⟨rand, ?_⟩
      cases i with
      | tick => exact (tick_platforms scr f.c).trans hr
      | keyDown key => exact (handleKeyDown_platforms f.c key).trans hr
      | keyUp key => exact (handleKeyUp_platforms f.c key).trans hr
    | restart rand' => exact ⟨rand', rfl⟩

/-- C11: in every state reached from a mounted game by ticks, key events and restarts
(the platform list is then one made by `initPlatforms`, platform `i` at
`y = SCREEN_HEIGHT - 60 * i`): for every height `y` of the player, two platforms of the
list that pass the band test `p.y <= y + 40 <= p.y + 20` have the same index; in the
tick that starts there at most one platform takes the bounce branch; and the platform
loop run over any reordering of the list gives the player the tick gives. -/
theorem C11_one_platform_per_tick (scr : Screen) (rand : ℕ → Draw) (actions : List Action) :
    let c := (runActions scr ⟨mount scr rand, []⟩ actions).c
    let pl := updatePlayerPhysics scr c.gameStateRef.player
    (∃ rand', c.gameStateRef.platforms = initPlatforms scr rand') ∧
    (∀ (y : ℚ) (i j : ℕ) (p q : Platform),
      c.gameStateRef.platforms[i]? = some p → c.gameStateRef.platforms[j]? = some q →
      inBand y p → inBand y q → i = j) ∧
    (bouncers pl c.gameStateRef.platforms).length ≤ 1 ∧
    (∀ pls' : List Platform, pls'.Perm c.gameStateRef.platforms →
      platformCollision pl pls' = (tick scr c).gameStateRef.player) := by
  intro c pl
  obtain ⟨rand', hgen⟩ := runActions_platforms scr actions ⟨mount scr rand, []⟩ ⟨rand, rfl⟩
  refine ⟨⟨rand', hgen⟩, ?_, bouncers_length_le_one _ _, ?_⟩
  · intro y i j p q hi hj hp hq
    have hgen' : c.gameStateRef.platforms = initPlatforms scr rand' := hgen
    rw [hgen'] at hi hj
    rw [initPlatforms_index scr rand' i p hi] at hp
    rw [initPlatforms_index scr rand' j q hj] at hq
    exact platformAt_band_unique scr rand' y i j hp hq
  · intro pls' hperm
    have hgen' : c.gameStateRef.platforms = initPlatforms scr rand' := hgen
    rw [tick_player]
    apply platformCollision_perm _ _ _ hperm
    rw [hgen']
    exact fun q r hq hr => initPlatforms_band_unique scr rand' _ q r hq hr

theorem C11_one_platform_per_tick_witness :
    platformCollision (updatePlayerPhysics demoScreen freshGame.gameStateRef.player)
        freshGame.gameStateRef.platforms.reverse =
      (tick demoScreen freshGame).gameStateRef.player :=
  (C11_one_platform_per_tick demoScreen (fun _ => halfDraw) []).2.2.2
    freshGame.gameStateRef.platforms.reverse (List.reverse_perm _)

end PacJump
